import Mathlib

set_option linter.unusedVariables false

/-! # Verification of the tappet tunnel engine (src/tappet.c)

The pure core of `tunnel` and `send_keepalive` from src/tappet.c is embedded
shallowly: byte buffers are lists of byte values (`Nat`, each cell < 256 in
every run of the C program), machine integers are `Int`/`Nat` with explicit
reduction mod 2^16 where the C code stores into a `uint16_t`, and the helper
routines that live outside src/tappet.c (`udp_read`, `decrypt`, `encrypt`,
`tap_read`, `tap_write`, `udp_write`, `generate_nonce`, `update_nonce`) enter
either as explicit environment parameters of the step functions or as
definitions modelled from the spec, each marked `Modelled from the spec:`.

The event loop of `tunnel` is decomposed into its independent pieces exactly
as the C code is shaped:

* `tunnelInit` — lines 141–177: initial nonces, peer setup, and the
  connector's startup keepalive;
* `udpDrainStep` — lines 217–276: one iteration of the UDP drain loop;
* `tapStep` — lines 285–303: one iteration of the TAP drain loop;
* `idleStep` — lines 312–317: the 10-second idle keepalive;
* `send_keepalive` — lines 328–351.
-/

/-- NONCEBYTES: nonces are 24 bytes. -/
def NONCEBYTES : Nat := 24

/-- ZEROBYTES: the 32-byte zero prefix required on plaintext buffers. -/
def ZEROBYTES : Nat := 32

/-- A 24-byte nonce, as a list of byte values. -/
abbrev Nonce := List Nat

/-- C `memcmp` on byte buffers: lexicographic (big-endian) comparison, the
first differing byte decides.  `tunnel` applies it to full 24-byte nonces
(`memcmp(theirnonce, newnonce, NONCEBYTES)`, line 230). -/
def memcmp : List Nat → List Nat → Ordering
  | [], [] => Ordering.eq
  | [], _ :: _ => Ordering.eq
  | _ :: _, [] => Ordering.eq
  | a :: as, b :: bs =>
    if a < b then Ordering.lt else if b < a then Ordering.gt else memcmp as bs

/-- Conversion of a C `int` value to `uint16_t` (reduction mod 2^16), as in
`uint16_t rcvd = n;` (line 229): a negative `int` wraps, e.g. `u16 (-2) =
65534`. -/
def u16 (n : Int) : Nat := (n % 65536).toNat

/-- A socket address (`struct sockaddr_storage`).  The C code tests
`peer->sa_family != 0` for "peer known"; the zeroed storage has `family = 0`. -/
structure Addr where
  family : Nat
  bytes : List Nat
deriving DecidableEq, Repr

/-- The mutable per-tunnel state owned by `tunnel` (lines 124–134). -/
structure TunnelState where
  theirnonce : Nonce
  ournonce : Nonce
  peer : Addr
  biggest_rcvd : Nat
  biggest_sent : Nat
  biggest_tried : Nat
deriving DecidableEq, Repr

/-- How one iteration of a drain loop (or of the idle branch) leaves the
control flow of `tunnel`: `brk` exits the drain loop back to `select`,
`cont` goes to the next drain iteration, `ret c` returns `c` from `tunnel`.
`nonceOverflow` is the spec-modelled fatal outcome of advancing a nonce
whose 19-byte counter is at its maximum (spec §4.2). -/
inductive StepResult where
  | brk (st : TunnelState)
  | cont (st : TunnelState)
  | ret (code : Int) (st : TunnelState)
  | nonceOverflow (st : TunnelState)
deriving DecidableEq, Repr

/-- The tunnel state carried by a `StepResult`. -/
def StepResult.state : StepResult → TunnelState
  | .brk st => st
  | .cont st => st
  | .ret _ st => st
  | .nonceOverflow st => st

/-- Whether a `StepResult` exits the drain loop back to `select`. -/
def StepResult.isBrk : StepResult → Bool
  | .brk _ => true
  | _ => false

/-- Outcome of one UDP drain iteration: the control-flow result, and the
byte string passed to `tap_write` when that call is made (line 274). -/
structure UdpStepOut where
  res : StepResult
  tapWrite : Option (List Nat)
deriving DecidableEq, Repr

/-- The success-path commit of the UDP drain loop (src/tappet.c lines
246–256): record the peer's nonce and address, and fold the received
length `rcvd = (uint16_t) n` (the `udp_read` return value truncated by the
`uint16_t rcvd = n;` store at line 229) into `biggest_rcvd`. -/
def commitState (st : TunnelState) (udpN : Int) (newnonce : Nonce) (newpeer : Addr) :
    TunnelState :=
  { st with
    theirnonce := newnonce
    peer := newpeer
    biggest_rcvd := if st.biggest_rcvd < u16 udpN then u16 udpN
                    else st.biggest_rcvd }

/-- The keepalive interpretation of a short decrypted packet (src/tappet.c
lines 264–272): when the plaintext length `n` satisfies
`n - ZEROBYTES == 3` and the first payload byte is 0xFE, raise
`biggest_sent` to the advertised size `(ptbuf[33] << 8) | ptbuf[34]`. -/
def kaUpdate (st1 : TunnelState) (n2 : Int) (ptbuf : List Nat) : TunnelState :=
  if n2 - 32 = 3 ∧ ptbuf.getD 32 0 = 254 then
    if st1.biggest_sent < ((ptbuf.getD 33 0) <<< 8 ||| ptbuf.getD 34 0) then
      { st1 with biggest_sent := (ptbuf.getD 33 0) <<< 8 ||| ptbuf.getD 34 0 }
    else st1
  else st1

/-- One iteration of the UDP drain loop of `tunnel` (src/tappet.c lines
217–276), with the results of the external calls passed in: `udpN`,
`newnonce`, `newpeer` are what `udp_read` produced (return value, nonce
buffer, sender address), `decResult` and `ptbuf` are the return value and
plaintext buffer a call to `decrypt` would produce, and `tapWriteRes` is
the return value a call to `tap_write` would produce.

Faithful to the C control flow: `n == 0` breaks; a stale nonce (memcmp of
the stored nonce against the candidate is not `lt`) overwrites `n` with
`-1`; `decrypt` runs only while `n > 0`; `n == -1` continues; `n < -2`
returns `n`; anything else commits `theirnonce`, `peer` and `biggest_rcvd`
(`commitState`) and is then classified by `n < 64`: a short packet gets
the keepalive interpretation (`kaUpdate`), a long one is written to the
tap with the 32-byte zero prefix stripped, a tap write failure returning
-1. -/
def udpDrainStep (st : TunnelState) (udpN : Int) (newnonce : Nonce) (newpeer : Addr)
    (decResult : Int) (ptbuf : List Nat) (tapWriteRes : Int) : UdpStepOut :=
  if udpN = 0 then ⟨.brk st, none⟩
  else
    let n1 : Int :=
      if 0 < udpN ∧ memcmp st.theirnonce newnonce ≠ Ordering.lt then -1 else udpN
    let n2 : Int := if 0 < n1 then decResult else n1
    if n2 = -1 then ⟨.cont st, none⟩
    else if n2 < -2 then ⟨.ret n2 st, none⟩
    else
      let st1 : TunnelState := commitState st udpN newnonce newpeer
      if n2 < 64 then
        ⟨.cont (kaUpdate st1 n2 ptbuf), none⟩
      else
        if tapWriteRes < 0 then
          ⟨.ret (-1) st1, some ((ptbuf.drop 32).take (n2 - 32).toNat)⟩
        else
          ⟨.cont st1, some ((ptbuf.drop 32).take (n2 - 32).toNat)⟩

/-- `decrypt` is consulted on this iteration exactly when `n` is still
positive after the replay check: the transcription of
`if (n > 0) n = decrypt(k, newnonce, ctbuf, n, ptbuf);` (line 233) given
`n` was set to `-1` on a stale nonce at line 230. -/
def decryptAttempted (st : TunnelState) (udpN : Int) (newnonce : Nonce) : Bool :=
  decide (0 < udpN) && decide (memcmp st.theirnonce newnonce = Ordering.lt)

/-- Modelled from the spec: the outcome of `udp_read` (datagram I/O,
§4.3, not part of src/tappet.c).  `wouldblock` ("no more readable traffic
right now") yields return value 0, and — per §9, "the source's draining
behaviour on the datagram side treats a zero-length receive as `no more
data`" — so does a received zero-length datagram.  A readable datagram
yields the positive ciphertext length; a recoverably bad datagram (e.g.
undersized, §4.3) yields -1, which the caller drops; a fatal I/O error
yields a value below -2, which the caller returns. -/
inductive UdpReadResult where
  | wouldblock
  | emptyDatagram
  | data (ctlen : Nat)
  | dropError
  | fatal (code : Int)
deriving DecidableEq, Repr

/-- The C `int` return value of the modelled `udp_read`. -/
def UdpReadResult.toInt : UdpReadResult → Int
  | .wouldblock => 0
  | .emptyDatagram => 0
  | .data l => (l : Int)
  | .dropError => -1
  | .fatal c => c

/-- Well-formedness of a modelled `udp_read` outcome: data is nonempty and
a fatal code is one the caller treats as fatal (`n < -2`). -/
def UdpReadResult.WF : UdpReadResult → Prop
  | .data l => 0 < l
  | .fatal c => c < -2
  | _ => True

/-- Modelled from the spec: the outcome of `decrypt` (crypto façade, §4.1,
not part of src/tappet.c).  On success it fills the plaintext buffer — the
plaintext carries the scheme's zero prefix and has the same length as its
input, so the return value is the full plaintext length including the
32-byte zero prefix (consistently with `n-ZEROBYTES == 3` recognising the
3-byte keepalive payload at line 266).  Authentication failure is the
recoverable dropped-packet indication, returned as -1 (handled at line
240); an unrecoverable internal error is a fatal value below -2 (handled
at line 243). -/
inductive DecryptResult where
  | success (pt : List Nat)
  | drop
  | fatal (code : Int)
deriving DecidableEq, Repr

/-- The C `int` return value of the modelled `decrypt`. -/
def DecryptResult.toInt : DecryptResult → Int
  | .success pt => pt.length
  | .drop => -1
  | .fatal c => c

/-- The plaintext buffer contents after the modelled `decrypt`. -/
def DecryptResult.buf : DecryptResult → List Nat
  | .success pt => pt
  | .drop => []
  | .fatal _ => []

/-- Whether the modelled `decrypt` succeeded. -/
def DecryptResult.isSuccess : DecryptResult → Bool
  | .success _ => true
  | _ => false

/-- Well-formedness of a modelled `decrypt` outcome: a fatal code is one
the caller treats as fatal (`n < -2`). -/
def DecryptResult.WF : DecryptResult → Prop
  | .fatal c => c < -2
  | _ => True

/-- Modelled from the spec: `generate_nonce` (nonce manager, §4.2, not part
of src/tappet.c).  Byte 0 is the side-tag, bytes 1–4 the persisted 32-bit
run prefix (stored big-endian here; §6 fixes one endianness, and the choice
is invisible to every claim because the prefix is constant within a run),
bytes 5–23 the counter starting at zero (§3). -/
def generate_nonce (npfx side : Nat) : Nonce :=
  side :: [npfx / 16777216 % 256, npfx / 65536 % 256, npfx / 256 % 256, npfx % 256]
    ++ List.replicate 19 0

/-- Increment of a little-endian byte string (least-significant byte first):
`none` when every byte is 255, i.e. on carry out of the last byte. -/
def incLE : List Nat → Option (List Nat)
  | [] => none
  | b :: bs =>
    if b = 255 then (incLE bs).map (fun bs' => 0 :: bs') else some ((b + 1) :: bs)

/-- Modelled from the spec: `update_nonce` (nonce manager, not part of
src/tappet.c).  §3: "bytes 5–23 form a 19-byte little-endian counter";
§4.2: "increments the 19-byte counter as an unsigned integer.  Overflow of
the counter is a fatal condition — the tunnel must refuse to continue
rather than reuse a nonce", modelled as `none`. -/
def update_nonce (nonce : Nonce) : Option Nonce :=
  (incLE (nonce.drop 5)).map (fun c => nonce.take 5 ++ c)

/-- The numeric value of a nonce's 19-byte little-endian counter
(bytes 5–23, per spec §3). -/
def leVal : List Nat → Nat
  | [] => 0
  | b :: bs => b + 256 * leVal bs

/-- The counter value of a nonce. -/
def ctrVal (n : Nonce) : Nat := leVal (n.drop 5)

/-- The nonce carried by the k-th outbound datagram of a run, counted from
the connector's startup keepalive: the startup keepalive is sent with the
initial nonce, without advancing it (lines 155–166 with `send_keepalive`'s
"Uses the nonce without updating it"), and every later outbound emission —
an encrypted TAP frame (line 288) or an idle keepalive (line 313) —
advances the nonce exactly once before encrypting. -/
def nthOutNonce (init : Nonce) : Nat → Option Nonce
  | 0 => some init
  | k + 1 => (nthOutNonce init k).bind update_nonce

/-- Outcome of `send_keepalive` (src/tappet.c lines 328–351): the return
value, the nonce handed to `encrypt`/`udp_write`, the plaintext it built,
and the `udp_write` call it made (destination, nonce, ciphertext length),
if it got that far. -/
structure KAOut where
  ret : Int
  sentNonce : Nonce
  plaintext : List Nat
  sent : Option (Addr × Nonce × Int)
deriving DecidableEq, Repr

/-- `send_keepalive` (src/tappet.c lines 328–351), with the results of the
external calls passed in: `encN` is the return value a call to `encrypt`
would produce (the spec's crypto façade returns the ciphertext length on
success and fails only on internal error), `udpWriteRes` the return value
a call to `udp_write` would produce.  It builds the plaintext
`32 zero bytes ++ [0xFE, size >> 8, size & 0xFF]`, encrypts with the nonce
it was given — "Uses the nonce without updating it" (its own comment,
line 324) — and returns 0 on success, -1 on encrypt or send failure. -/
def send_keepalive (size : Nat) (peer : Addr) (nonce : Nonce)
    (encN : Int) (udpWriteRes : Int) : KAOut :=
  let p : List Nat := List.replicate 32 0 ++ [254, size / 256 % 256, size % 256]
  if encN < 0 then ⟨-1, nonce, p, none⟩
  else if udpWriteRes < 0 then ⟨-1, nonce, p, some (peer, nonce, encN)⟩
  else ⟨0, nonce, p, some (peer, nonce, encN)⟩

/-- Outcome of tunnel initialisation: the state the event loop starts with
(`none` models `return -1` from `tunnel`), and the startup keepalive call
the connector made, if any. -/
structure InitOut where
  st : Option TunnelState
  startupKA : Option KAOut
deriving DecidableEq, Repr

/-- Initialisation of `tunnel` (src/tappet.c lines 141–177): generate our
nonce from the run prefix, zero `theirnonce`, zero the peer address; the
connector (`listen == 0`) copies the configured server address into
`peer` and sends one keepalive of size 0 to it straightaway, returning -1
if that fails; the three size counters start at 0.  (`side` is the nonce
side-tag of spec §3; `encN`/`udpWriteRes` are the external-call results
for the startup keepalive.) -/
def tunnelInit (listenFlag : Bool) (server : Addr) (npfx side : Nat)
    (encN : Int) (udpWriteRes : Int) : InitOut :=
  let ournonce := generate_nonce npfx side
  let st0 : TunnelState :=
    { theirnonce := List.replicate 24 0
      ournonce := ournonce
      peer := ⟨0, []⟩
      biggest_rcvd := 0
      biggest_sent := 0
      biggest_tried := 0 }
  match listenFlag with
  | true => ⟨some st0, none⟩
  | false =>
    let st1 := { st0 with peer := server }
    let ka := send_keepalive 0 server ournonce encN udpWriteRes
    if ka.ret < 0 then ⟨none, some ka⟩ else ⟨some st1, some ka⟩

/-- Outcome of one TAP drain iteration: the control-flow result and the
`udp_write` call made (nonce, ciphertext length), if any. -/
structure TapStepOut where
  res : StepResult
  sent : Option (Nonce × Int)
deriving DecidableEq, Repr

/-- One iteration of the TAP drain loop of `tunnel` (src/tappet.c lines
285–303): read a frame (`tapN` is `tap_read`'s return value); if positive,
advance `ournonce` — the spec-modelled `update_nonce` overflow is fatal —
and encrypt (`encN` is `encrypt`'s return value); 0 breaks, a negative is
returned; otherwise raise `biggest_tried` to the datagram length
`n + NONCEBYTES` (stored into a `uint16_t`) and send, a send failure
returning -1. -/
def tapStep (st : TunnelState) (tapN : Int) (encN : Int) (udpWriteRes : Int) :
    TapStepOut :=
  if 0 < tapN then
    match update_nonce st.ournonce with
    | none => ⟨.nonceOverflow st, none⟩
    | some nn =>
      let stA := { st with ournonce := nn }
      if encN = 0 then ⟨.brk stA, none⟩
      else if encN < 0 then ⟨.ret encN stA, none⟩
      else
        let stB :=
          if (stA.biggest_tried : Int) < encN + 24
          then { stA with biggest_tried := u16 (encN + 24) } else stA
        if udpWriteRes < 0 then ⟨.ret (-1) stB, some (nn, encN)⟩
        else ⟨.cont stB, some (nn, encN)⟩
  else
    if tapN = 0 then ⟨.brk st, none⟩
    else ⟨.ret tapN st, none⟩

/-- Outcome of the idle branch: the control-flow result and the
`send_keepalive` call made, if any. -/
structure IdleOut where
  res : StepResult
  ka : Option KAOut
deriving DecidableEq, Repr

/-- The idle branch of `tunnel` (src/tappet.c lines 312–317): when `select`
timed out (`nfds == 0`) and the peer is known, advance `ournonce` — the
spec-modelled `update_nonce` overflow is fatal — and send a keepalive
carrying `biggest_rcvd`; its failure returns -1. -/
def idleStep (st : TunnelState) (nfds : Int) (encN : Int) (udpWriteRes : Int) :
    IdleOut :=
  if nfds = 0 ∧ st.peer.family ≠ 0 then
    match update_nonce st.ournonce with
    | none => ⟨.nonceOverflow st, none⟩
    | some nn =>
      let st1 := { st with ournonce := nn }
      let ka := send_keepalive st.biggest_rcvd st.peer nn encN udpWriteRes
      if ka.ret < 0 then ⟨.ret (-1) st1, some ka⟩ else ⟨.cont st1, some ka⟩
  else ⟨.cont st, none⟩

/-! ## Helper lemmas about the UDP drain step -/

theorem udpStep_zero (st : TunnelState) (nn : Nonce) (np : Addr)
    (d : Int) (pt : List Nat) (tw : Int) :
    udpDrainStep st 0 nn np d pt tw = ⟨.brk st, none⟩ := by
  simp [udpDrainStep]

theorem udpStep_negOne (st : TunnelState) (nn : Nonce) (np : Addr)
    (d : Int) (pt : List Nat) (tw : Int) :
    udpDrainStep st (-1) nn np d pt tw = ⟨.cont st, none⟩ := by
  norm_num [udpDrainStep]

theorem udpStep_fatalRead (st : TunnelState) (c : Int) (nn : Nonce) (np : Addr)
    (d : Int) (pt : List Nat) (tw : Int) (h : c < -2) :
    udpDrainStep st c nn np d pt tw = ⟨.ret c st, none⟩ := by
  have h0 : ¬ c = 0 := by omega
  have h1 : ¬ 0 < c := by omega
  have h2 : ¬ c = -1 := by omega
  simp [udpDrainStep, h0, h1, h2, h]

theorem udpStep_drop (st : TunnelState) (udpN : Int) (nn : Nonce) (np : Addr)
    (d : Int) (pt : List Nat) (tw : Int) (h1 : 0 < udpN)
    (h2 : memcmp st.theirnonce nn ≠ Ordering.lt ∨ d = -1) :
    udpDrainStep st udpN nn np d pt tw = ⟨.cont st, none⟩ := by
  have h0 : ¬ udpN = 0 := by omega
  rcases h2 with h2 | h2
  · simp [udpDrainStep, h0, h1, h2]
  · subst h2
    by_cases hm : memcmp st.theirnonce nn = Ordering.lt
    · simp [udpDrainStep, h0, h1, hm]
    · simp [udpDrainStep, h0, h1, hm]

theorem udpStep_fatalDec (st : TunnelState) (udpN : Int) (nn : Nonce) (np : Addr)
    (d : Int) (pt : List Nat) (tw : Int) (h1 : 0 < udpN)
    (h2 : memcmp st.theirnonce nn = Ordering.lt) (h3 : d < -2) :
    udpDrainStep st udpN nn np d pt tw = ⟨.ret d st, none⟩ := by
  have h0 : ¬ udpN = 0 := by omega
  have h4 : ¬ d = -1 := by omega
  simp [udpDrainStep, h0, h1, h2, h3, h4]

theorem udpStep_commit (st : TunnelState) (udpN L : Int) (nn : Nonce) (np : Addr)
    (pt : List Nat) (tw : Int) (h1 : 0 < udpN)
    (h2 : memcmp st.theirnonce nn = Ordering.lt) (h3 : -2 ≤ L) (h4 : L ≠ -1) :
    udpDrainStep st udpN nn np L pt tw =
      (if L < 64 then
         ⟨.cont (kaUpdate (commitState st udpN nn np) L pt), none⟩
       else if tw < 0 then
         ⟨.ret (-1) (commitState st udpN nn np), some ((pt.drop 32).take (L - 32).toNat)⟩
       else
         ⟨.cont (commitState st udpN nn np), some ((pt.drop 32).take (L - 32).toNat)⟩) := by
  have h0 : ¬ udpN = 0 := by omega
  have h5 : ¬ L < -2 := by omega
  simp [udpDrainStep, h0, h1, h2, h4, h5]

theorem kaUpdate_fields (s : TunnelState) (n2 : Int) (pt : List Nat) :
    (kaUpdate s n2 pt).theirnonce = s.theirnonce ∧
    (kaUpdate s n2 pt).peer = s.peer ∧
    (kaUpdate s n2 pt).ournonce = s.ournonce ∧
    (kaUpdate s n2 pt).biggest_rcvd = s.biggest_rcvd ∧
    (kaUpdate s n2 pt).biggest_tried = s.biggest_tried := by
  unfold kaUpdate
  repeat' split
  all_goals simp

theorem commitState_fields (st : TunnelState) (udpN : Int) (nn : Nonce) (np : Addr) :
    (commitState st udpN nn np).theirnonce = nn ∧
    (commitState st udpN nn np).peer = np ∧
    (commitState st udpN nn np).ournonce = st.ournonce ∧
    (commitState st udpN nn np).biggest_rcvd =
      (if st.biggest_rcvd < u16 udpN then u16 udpN else st.biggest_rcvd) ∧
    (commitState st udpN nn np).biggest_sent = st.biggest_sent ∧
    (commitState st udpN nn np).biggest_tried = st.biggest_tried := by
  simp [commitState]

/-! ## Claims C2, C4, C9, C10 -/

/-- Claim C2: an inbound datagram (a positive `udp_read` result) has
decryption attempted — and, on success, state committed — if and only if
its nonce is strictly greater than the stored `theirnonce` under
lexicographic big-endian comparison of the full 24 bytes; an equal or
lesser candidate is dropped with the state unchanged and no decryption
result consulted. -/
theorem c2_nonce_gate (st : TunnelState) (udpN : Int) (nn : Nonce) (np : Addr)
    (h1 : 0 < udpN) :
    (decryptAttempted st udpN nn = true ↔ memcmp st.theirnonce nn = Ordering.lt) ∧
    (memcmp st.theirnonce nn ≠ Ordering.lt →
      ∀ (d : Int) (pt : List Nat) (tw : Int),
        udpDrainStep st udpN nn np d pt tw = ⟨.cont st, none⟩) ∧
    (memcmp st.theirnonce nn = Ordering.lt →
      ∀ (L : Int) (pt : List Nat) (tw : Int), 0 ≤ L →
        (udpDrainStep st udpN nn np L pt tw).res.state.theirnonce = nn ∧
        (udpDrainStep st udpN nn np L pt tw).res.state.peer = np) := by
  refine ⟨?_, ?_, ?_⟩
  · simp [decryptAttempted, h1]
  · intro h2 d pt tw
    exact udpStep_drop st udpN nn np d pt tw h1 (Or.inl h2)
  · intro hm L pt tw hL
    have h3 : (-2 : Int) ≤ L := by omega
    have h4 : L ≠ -1 := by omega
    rw [udpStep_commit st udpN L nn np pt tw h1 hm h3 h4]
    constructor <;>
      · repeat' split
        all_goals
          simp [StepResult.state, (kaUpdate_fields _ _ _).1,
            (kaUpdate_fields _ _ _).2.1, (commitState_fields st udpN nn np).1,
            (commitState_fields st udpN nn np).2.1]

/-- Witness for C2 at a concrete input: with `theirnonce` all-zero and a
candidate nonce whose last byte is 1, decryption is attempted. -/
theorem c2_witness :
    decryptAttempted ⟨List.replicate 24 0, List.replicate 24 0, ⟨0, []⟩, 0, 0, 0⟩
      43 (List.replicate 23 0 ++ [1]) = true :=
  ((c2_nonce_gate ⟨List.replicate 24 0, List.replicate 24 0, ⟨0, []⟩, 0, 0, 0⟩
      43 (List.replicate 23 0 ++ [1]) ⟨2, [7]⟩ (by norm_num)).1).mpr (by decide)

/-- Claim C4: an inbound datagram dropped because its nonce is not
strictly greater than `theirnonce`, or because decryption failed
recoverably (`decrypt` returned -1), leaves the entire tunnel state —
`theirnonce`, `peer`, `biggest_rcvd`, `biggest_sent`, `biggest_tried` —
unchanged, makes no tap write, and the drain loop continues. -/
theorem c4_drop_no_state_change (st : TunnelState) (udpN : Int) (nn : Nonce)
    (np : Addr) (d : Int) (pt : List Nat) (tw : Int) (h1 : 0 < udpN)
    (h2 : memcmp st.theirnonce nn ≠ Ordering.lt ∨ d = -1) :
    udpDrainStep st udpN nn np d pt tw = ⟨.cont st, none⟩ :=
  udpStep_drop st udpN nn np d pt tw h1 h2

/-- Witness for C4 at a concrete input: an authentication failure
(`decrypt` = -1) on a fresh nonce leaves the state unchanged. -/
theorem c4_witness :
    udpDrainStep ⟨List.replicate 24 0, List.replicate 24 0, ⟨0, []⟩, 0, 0, 0⟩ 43
      (List.replicate 23 0 ++ [1]) ⟨2, [7]⟩ (-1) [] 0 =
    ⟨.cont ⟨List.replicate 24 0, List.replicate 24 0, ⟨0, []⟩, 0, 0, 0⟩, none⟩ :=
  c4_drop_no_state_change ⟨List.replicate 24 0, List.replicate 24 0, ⟨0, []⟩, 0, 0, 0⟩
    43 (List.replicate 23 0 ++ [1]) ⟨2, [7]⟩ (-1) [] 0 (by norm_num) (Or.inr rfl)

/-- Claim C9: the UDP drain loop exits back to `select` exactly when
`udp_read` returned 0, and the modelled `udp_read` returns 0 both for "no
more readable traffic" and for a zero-length datagram, so the two are
indistinguishable to the loop. -/
theorem c9_drain_stop :
    (∀ (st : TunnelState) (udpN : Int) (nn : Nonce) (np : Addr) (d : Int)
       (pt : List Nat) (tw : Int),
       ((udpDrainStep st udpN nn np d pt tw).res.isBrk = true ↔ udpN = 0)) ∧
    UdpReadResult.emptyDatagram.toInt = UdpReadResult.wouldblock.toInt := by
  refine ⟨fun st udpN nn np d pt tw => ⟨fun h => ?_, fun h => ?_⟩, rfl⟩
  · by_contra h0
    revert h
    simp only [udpDrainStep, if_neg h0]
    repeat' split
    all_goals simp [StepResult.isBrk]
  · subst h
    simp [udpDrainStep, StepResult.isBrk]

/-- Claim C10: the error discrimination on the receive/decrypt result `n`
is not exhaustive: `n = -1` drops, `n < -2` terminates the tunnel, but
`n = -2` — whether produced by `udp_read` or by `decrypt` — falls through
to the success path, committing `theirnonce` and `peer` from the datagram
and folding the received length, cast to `uint16_t` (so 65534 when the
`-2` came from `udp_read`), into `biggest_rcvd`. -/
theorem c10_minus_two_fallthrough (st : TunnelState) (udpN : Int) (nn : Nonce)
    (np : Addr) (d : Int) (pt : List Nat) (tw : Int)
    (h1 : 0 < udpN) (h2 : memcmp st.theirnonce nn = Ordering.lt) :
    udpDrainStep st (-1) nn np d pt tw = ⟨.cont st, none⟩ ∧
    (∀ c : Int, c < -2 → udpDrainStep st c nn np d pt tw = ⟨.ret c st, none⟩) ∧
    udpDrainStep st (-2) nn np d pt tw =
      ⟨.cont { st with
          theirnonce := nn
          peer := np
          biggest_rcvd := if st.biggest_rcvd < 65534 then 65534
                          else st.biggest_rcvd }, none⟩ ∧
    udpDrainStep st udpN nn np (-2) pt tw =
      ⟨.cont { st with
          theirnonce := nn
          peer := np
          biggest_rcvd := if st.biggest_rcvd < u16 udpN then u16 udpN
                          else st.biggest_rcvd }, none⟩ := by
  have hu : u16 (-2) = 65534 := by decide
  refine ⟨udpStep_negOne st nn np d pt tw,
          fun c hc => udpStep_fatalRead st c nn np d pt tw hc, ?_, ?_⟩
  · norm_num [udpDrainStep, commitState, kaUpdate, hu]
  · rw [udpStep_commit st udpN (-2) nn np pt tw h1 h2 (by norm_num) (by norm_num)]
    norm_num [commitState, kaUpdate]

/-- Witness for C10 at a concrete input: a `decrypt` result of exactly -2
on a fresh nonce commits the sender's state as if decryption had
succeeded. -/
theorem c10_witness :
    udpDrainStep ⟨List.replicate 24 0, List.replicate 24 0, ⟨0, []⟩, 0, 0, 0⟩ 43
      (List.replicate 23 0 ++ [1]) ⟨2, [7]⟩ (-2) [] 0 =
    ⟨.cont { (⟨List.replicate 24 0, List.replicate 24 0, ⟨0, []⟩, 0, 0, 0⟩ : TunnelState) with
        theirnonce := List.replicate 23 0 ++ [1]
        peer := ⟨2, [7]⟩
        biggest_rcvd :=
          if (0 : Nat) < u16 43 then u16 43 else (0 : Nat) }, none⟩ :=
  (c10_minus_two_fallthrough
    ⟨List.replicate 24 0, List.replicate 24 0, ⟨0, []⟩, 0, 0, 0⟩ 43
    (List.replicate 23 0 ++ [1]) ⟨2, [7]⟩ (-2) [] 0
    (by norm_num) (by decide)).2.2.2

theorem kaUpdate_theirnonce (s : TunnelState) (n2 : Int) (pt : List Nat) :
    (kaUpdate s n2 pt).theirnonce = s.theirnonce := (kaUpdate_fields s n2 pt).1

theorem kaUpdate_peer (s : TunnelState) (n2 : Int) (pt : List Nat) :
    (kaUpdate s n2 pt).peer = s.peer := (kaUpdate_fields s n2 pt).2.1

theorem kaUpdate_ournonce (s : TunnelState) (n2 : Int) (pt : List Nat) :
    (kaUpdate s n2 pt).ournonce = s.ournonce := (kaUpdate_fields s n2 pt).2.2.1

theorem kaUpdate_biggest_rcvd (s : TunnelState) (n2 : Int) (pt : List Nat) :
    (kaUpdate s n2 pt).biggest_rcvd = s.biggest_rcvd := (kaUpdate_fields s n2 pt).2.2.2.1

theorem kaUpdate_biggest_tried (s : TunnelState) (n2 : Int) (pt : List Nat) :
    (kaUpdate s n2 pt).biggest_tried = s.biggest_tried := (kaUpdate_fields s n2 pt).2.2.2.2

theorem udpStep_commit_fields (st : TunnelState) (udpN L : Int) (nn : Nonce)
    (np : Addr) (pt : List Nat) (tw : Int) (h1 : 0 < udpN)
    (h2 : memcmp st.theirnonce nn = Ordering.lt) (h3 : -2 ≤ L) (h4 : L ≠ -1) :
    (udpDrainStep st udpN nn np L pt tw).res.state.theirnonce = nn ∧
    (udpDrainStep st udpN nn np L pt tw).res.state.peer = np ∧
    (udpDrainStep st udpN nn np L pt tw).res.state.biggest_rcvd =
      (if st.biggest_rcvd < u16 udpN then u16 udpN else st.biggest_rcvd) ∧
    (udpDrainStep st udpN nn np L pt tw).res.state.ournonce = st.ournonce ∧
    (udpDrainStep st udpN nn np L pt tw).res.state.biggest_tried = st.biggest_tried ∧
    (udpDrainStep st udpN nn np L pt tw).tapWrite =
      (if L < 64 then none else some ((pt.drop 32).take (L - 32).toNat)) := by
  rw [udpStep_commit st udpN L nn np pt tw h1 h2 h3 h4]
  refine ⟨?_, ?_, ?_, ?_, ?_, ?_⟩ <;>
    · repeat' split
      all_goals
        simp [StepResult.state, kaUpdate_theirnonce, kaUpdate_peer,
          kaUpdate_ournonce, kaUpdate_biggest_rcvd, kaUpdate_biggest_tried,
          commitState]
      all_goals omega

/-- Claim C5: `peer` changes only as a side effect of a successful
authenticated decrypt that also passed the nonce-freshness check, and
every such successful decrypt commits the sender's address together with
the new `theirnonce` and the `biggest_rcvd` update; receipt alone — any
modelled `udp_read`/`decrypt` outcome other than a fresh-nonce success —
never changes `peer`. -/
theorem c5_peer_commit (st : TunnelState) (r : UdpReadResult) (d : DecryptResult)
    (nn : Nonce) (np : Addr) (tw : Int) (hr : r.WF) (hd : d.WF) :
    ((udpDrainStep st r.toInt nn np d.toInt d.buf tw).res.state.peer ≠ st.peer →
      0 < r.toInt ∧ memcmp st.theirnonce nn = Ordering.lt ∧ d.isSuccess = true) ∧
    (0 < r.toInt → memcmp st.theirnonce nn = Ordering.lt → d.isSuccess = true →
      (udpDrainStep st r.toInt nn np d.toInt d.buf tw).res.state.theirnonce = nn ∧
      (udpDrainStep st r.toInt nn np d.toInt d.buf tw).res.state.peer = np ∧
      (udpDrainStep st r.toInt nn np d.toInt d.buf tw).res.state.biggest_rcvd =
        (if st.biggest_rcvd < u16 r.toInt then u16 r.toInt
         else st.biggest_rcvd)) := by
  cases r with
  | wouldblock =>
    simp [UdpReadResult.toInt, udpStep_zero, StepResult.state]
  | emptyDatagram =>
    simp [UdpReadResult.toInt, udpStep_zero, StepResult.state]
  | dropError =>
    simp [UdpReadResult.toInt, udpStep_negOne, StepResult.state]
  | fatal c =>
    have hc : c < -2 := hr
    have hc0 : ¬ (0 : Int) < c := by omega
    simp [UdpReadResult.toInt, udpStep_fatalRead st c nn np _ _ _ hc,
      StepResult.state, hc0]
  | data l =>
    have hl : 0 < l := hr
    have hl' : 0 < ((l : Nat) : Int) := by exact_mod_cast hl
    by_cases hm : memcmp st.theirnonce nn = Ordering.lt
    · cases d with
      | drop =>
        simp [UdpReadResult.toInt, DecryptResult.toInt, DecryptResult.buf,
          DecryptResult.isSuccess,
          udpStep_drop st ((l : Nat) : Int) nn np (-1) [] tw hl' (Or.inr rfl),
          StepResult.state]
      | fatal c =>
        have hc : c < -2 := hd
        simp [UdpReadResult.toInt, DecryptResult.toInt, DecryptResult.buf,
          DecryptResult.isSuccess,
          udpStep_fatalDec st ((l : Nat) : Int) nn np c [] tw hl' hm hc,
          StepResult.state]
      | success pt =>
        have h3 : (-2 : Int) ≤ (pt.length : Int) := by omega
        have h4 : ((pt.length : Nat) : Int) ≠ -1 := by omega
        have hfield := udpStep_commit_fields st ((l : Nat) : Int) (pt.length : Int)
          nn np pt tw hl' hm h3 h4
        refine ⟨fun _ => ⟨hl', hm, rfl⟩, fun _ _ _ => ?_⟩
        exact ⟨hfield.1, hfield.2.1, hfield.2.2.1⟩
    · have hdrop : ∀ (dd : Int) (pp : List Nat),
          udpDrainStep st ((l : Nat) : Int) nn np dd pp tw = ⟨.cont st, none⟩ :=
        fun dd pp => udpStep_drop st ((l : Nat) : Int) nn np dd pp tw hl' (Or.inl hm)
      simp [UdpReadResult.toInt, hdrop, StepResult.state, hm]

/-- Witness for C5 at a concrete input: a successful decrypt on a fresh
nonce commits the sender's address. -/
theorem c5_witness :
    (udpDrainStep ⟨List.replicate 24 0, List.replicate 24 0, ⟨0, []⟩, 0, 0, 0⟩
        (UdpReadResult.data 43).toInt (List.replicate 23 0 ++ [1]) ⟨2, [7]⟩
        (DecryptResult.success (List.replicate 96 0)).toInt
        (DecryptResult.success (List.replicate 96 0)).buf 0).res.state.peer =
      ⟨2, [7]⟩ :=
  ((c5_peer_commit ⟨List.replicate 24 0, List.replicate 24 0, ⟨0, []⟩, 0, 0, 0⟩
      (UdpReadResult.data 43) (DecryptResult.success (List.replicate 96 0))
      (List.replicate 23 0 ++ [1]) ⟨2, [7]⟩ 0 (show (0 : Nat) < 43 by decide)
      trivial).2
    (by decide) (by decide) rfl).2.1

/-! ## Claims C1, C3, C6, C7, C8 -/

/-- Claim C1 counterexample: a successfully decrypted packet whose
post-strip payload is exactly 63 bytes (decrypt returned 95 = 32 + 63, the
plaintext length including the zero prefix) IS written to the tap — the
written bytes are the 63-byte payload — contradicting the claim that a
63-byte post-strip payload drops. -/
theorem c1_counterexample :
    (udpDrainStep ⟨List.replicate 24 0, List.replicate 24 0, ⟨0, []⟩, 0, 0, 0⟩ 79
        (List.replicate 23 0 ++ [1]) ⟨2, [9]⟩ 95
        (List.replicate 32 0 ++ List.replicate 63 170) 0).tapWrite =
      some (List.replicate 63 170) ∧
    (List.replicate 63 170 : List Nat).length = 63 := by decide

/-- Claim C1 amended: the 64-byte classification threshold is applied to
the decrypt result `n`, the plaintext length INCLUDING the 32-byte zero
prefix — not to the post-strip length.  So `n ≥ 64` (post-strip ≥ 32) is
written to the tap and `n < 64` (post-strip < 32, other than the keepalive)
is dropped: a post-strip payload of 31 bytes (`n = 63`) drops, one of 32
bytes (`n = 64`) forwards, and the claim's 63-byte post-strip case
forwards. -/
theorem c1_amended_threshold (st : TunnelState) (udpN L : Int) (nn : Nonce)
    (np : Addr) (pt : List Nat) (tw : Int) (h1 : 0 < udpN)
    (h2 : memcmp st.theirnonce nn = Ordering.lt) (h3 : 0 ≤ L) :
    (L < 64 → (udpDrainStep st udpN nn np L pt tw).tapWrite = none) ∧
    (64 ≤ L → (udpDrainStep st udpN nn np L pt tw).tapWrite =
      some ((pt.drop 32).take (L - 32).toNat)) ∧
    (udpDrainStep st udpN nn np 63 pt tw).tapWrite = none ∧
    (udpDrainStep st udpN nn np 64 pt tw).tapWrite =
      some ((pt.drop 32).take 32) := by
  have cL := (udpStep_commit_fields st udpN L nn np pt tw h1 h2 (by omega)
    (by omega)).2.2.2.2.2
  have c63 := (udpStep_commit_fields st udpN 63 nn np pt tw h1 h2 (by norm_num)
    (by norm_num)).2.2.2.2.2
  have c64 := (udpStep_commit_fields st udpN 64 nn np pt tw h1 h2 (by norm_num)
    (by norm_num)).2.2.2.2.2
  refine ⟨fun hL => ?_, fun hL => ?_, ?_, ?_⟩
  · rw [cL, if_pos hL]
  · rw [cL, if_neg (by omega)]
  · rw [c63]; norm_num
  · rw [c64]; simp

/-- Witness for the amended C1 at a concrete input: a decrypt result of 64
(post-strip 32) is forwarded to the tap. -/
theorem c1_witness :
    (udpDrainStep ⟨List.replicate 24 0, List.replicate 24 0, ⟨0, []⟩, 0, 0, 0⟩ 79
        (List.replicate 23 0 ++ [1]) ⟨2, [9]⟩ 64 (List.replicate 96 7) 0).tapWrite =
      some (((List.replicate 96 7 : List Nat).drop 32).take 32) :=
  (c1_amended_threshold ⟨List.replicate 24 0, List.replicate 24 0, ⟨0, []⟩, 0, 0, 0⟩
    79 64 (List.replicate 23 0 ++ [1]) ⟨2, [9]⟩ (List.replicate 96 7) 0
    (by norm_num) (by decide) (by norm_num)).2.2.2

theorem incLE_leVal : ∀ (c c' : List Nat), incLE c = some c' → leVal c' = leVal c + 1 := by
  intro c
  induction c with
  | nil => intro c' h; simp [incLE] at h
  | cons b bs ih =>
    intro c' h
    by_cases hb : b = 255
    · subst hb
      cases hbs : incLE bs with
      | none =>
        rw [show incLE (255 :: bs) = (incLE bs).map (fun bs' => 0 :: bs') from rfl,
          hbs] at h
        simp at h
      | some bs' =>
        rw [show incLE (255 :: bs) = (incLE bs).map (fun bs' => 0 :: bs') from rfl,
          hbs] at h
        simp at h
        subst h
        simp [leVal, ih bs' hbs]
        omega
    · rw [show incLE (b :: bs) = some ((b + 1) :: bs) from by simp [incLE, hb]] at h
      simp at h
      subst h
      simp [leVal]
      omega

theorem update_nonce_spec (n n' : Nonce) (h : update_nonce n = some n') :
    ctrVal n' = ctrVal n + 1 ∧ n'.take 5 = n.take 5 := by
  unfold update_nonce at h
  obtain ⟨c', hc, hn⟩ : ∃ c', incLE (n.drop 5) = some c' ∧ n.take 5 ++ c' = n' := by
    cases hinc : incLE (n.drop 5) with
    | none => rw [hinc] at h; simp at h
    | some c' => rw [hinc] at h; simp at h; exact ⟨c', rfl, h⟩
  subst hn
  have h5 : 5 ≤ n.length := by
    by_contra hlen
    have hnil : n.drop 5 = [] := List.drop_eq_nil_of_le (by omega)
    rw [hnil] at hc
    simp [incLE] at hc
  have htk : (n.take 5).length = 5 := by
    simp [List.length_take]
    omega
  constructor
  · unfold ctrVal
    have hdrop : (n.take 5 ++ c').drop 5 = c' := by
      have h' := List.drop_left (n.take 5) c'
      rw [htk] at h'
      exact h'
    rw [hdrop]
    exact incLE_leVal _ _ hc
  · have h' := List.take_left (n.take 5) c'
    rw [htk] at h'
    rw [h']

/-- Claim C3 counterexample: within one run (initial nonce from prefix 7,
side-tag 0), the 255th and 256th outbound nonces — consecutive outbound
emissions — compare the wrong way: the earlier one is strictly GREATER
under the 24-byte lexicographic big-endian comparison, because the
spec-modelled little-endian counter wraps its least-significant byte
(byte 5) from 255 to 0 while carrying into byte 6. -/
theorem c3_counterexample :
    nthOutNonce (generate_nonce 7 0) 255 =
      some ([0, 0, 0, 0, 7] ++ [255] ++ List.replicate 18 0) ∧
    nthOutNonce (generate_nonce 7 0) 256 =
      some ([0, 0, 0, 0, 7] ++ [0, 1] ++ List.replicate 17 0) ∧
    memcmp ([0, 0, 0, 0, 7] ++ [255] ++ List.replicate 18 0)
      ([0, 0, 0, 0, 7] ++ [0, 1] ++ List.replicate 17 0) = Ordering.gt := by
  set_option maxRecDepth 4000 in decide

/-- Claim C3 amended: consecutive outbound nonces strictly increase as
values of the 19-byte little-endian counter (bytes 5–23), with the
side-tag and prefix bytes (0–4) unchanged — so no nonce is ever reused —
but they are NOT strictly increasing under lexicographic big-endian
comparison of the 24 bytes (see the counterexample at counter 255 → 256). -/
theorem c3_amended_counter (init : Nonce) (k : Nat) (n1 n2 : Nonce)
    (h1 : nthOutNonce init k = some n1) (h2 : nthOutNonce init (k + 1) = some n2) :
    ctrVal n2 = ctrVal n1 + 1 ∧ n2.take 5 = n1.take 5 ∧ n2 ≠ n1 := by
  have hup : update_nonce n1 = some n2 := by
    simp only [nthOutNonce] at h2
    rw [h1] at h2
    simpa using h2
  have hs := update_nonce_spec n1 n2 hup
  refine ⟨hs.1, hs.2, fun he => ?_⟩
  have := hs.1
  rw [he] at this
  omega

/-- Witness for the amended C3 at a concrete input: the first advance of a
run increments the counter from 0 to 1. -/
theorem c3_witness :
    ctrVal ([0, 0, 0, 0, 7] ++ [1] ++ List.replicate 18 0) =
      ctrVal (generate_nonce 7 0) + 1 :=
  (c3_amended_counter (generate_nonce 7 0) 0 (generate_nonce 7 0)
    ([0, 0, 0, 0, 7] ++ [1] ++ List.replicate 18 0) rfl (by decide)).1

/-- Claim C6: when the 19-byte counter of `ournonce` is at its maximum
(every counter byte 255), advancing is the spec-modelled fatal condition:
`update_nonce` signals overflow, and both outbound paths that advance the
nonce — the TAP drain iteration and the idle keepalive — terminate with
`nonceOverflow`, emitting nothing. -/
theorem c6_overflow_fatal (st : TunnelState)
    (h : st.ournonce.drop 5 = List.replicate 19 255) :
    update_nonce st.ournonce = none ∧
    (∀ (tapN encN uw : Int), 0 < tapN →
      tapStep st tapN encN uw = ⟨.nonceOverflow st, none⟩) ∧
    (∀ (encN uw : Int), st.peer.family ≠ 0 →
      idleStep st 0 encN uw = ⟨.nonceOverflow st, none⟩) := by
  have hnone : update_nonce st.ournonce = none := by
    unfold update_nonce
    rw [h, show incLE (List.replicate 19 255) = none from by decide]
    rfl
  refine ⟨hnone, fun tapN encN uw htap => ?_, fun encN uw hpeer => ?_⟩
  · simp [tapStep, htap, hnone]
  · simp [idleStep, hpeer, hnone]

/-- Witness for C6 at a concrete input: a nonce whose counter bytes are
all 255 cannot be advanced. -/
theorem c6_witness :
    update_nonce ((⟨List.replicate 24 0, [0, 0, 0, 0, 7] ++ List.replicate 19 255,
        ⟨0, []⟩, 0, 0, 0⟩ : TunnelState).ournonce) = none :=
  (c6_overflow_fatal ⟨List.replicate 24 0, [0, 0, 0, 0, 7] ++ List.replicate 19 255,
    ⟨0, []⟩, 0, 0, 0⟩ (by decide)).1

/-- Claim C7 counterexample: `send_keepalive` does NOT advance the nonce —
it encrypts with exactly the nonce it was handed (its own comment: "Uses
the nonce without updating it"), and the connector's startup keepalive in
particular is emitted with the un-advanced initial nonce, contradicting
the claim that every `send_keepalive` invocation advances `our_nonce`
before encrypting. -/
theorem c7_counterexample :
    (send_keepalive 0 ⟨2, [9]⟩ (generate_nonce 7 0) 35 0).sentNonce =
      generate_nonce 7 0 ∧
    update_nonce (generate_nonce 7 0) ≠ some (generate_nonce 7 0) ∧
    ((tunnelInit false ⟨2, [9]⟩ 7 0 35 0).startupKA.map KAOut.sentNonce) =
      some (generate_nonce 7 0) := by decide

/-- Claim C7 amended: `send_keepalive` builds the plaintext
`32 zero bytes ++ [0xFE, size >> 8, size & 0xFF]`, encrypts with the
caller's nonce UNCHANGED (it does not advance it), and returns -1 on
encrypt or send failure, 0 on success; the idle-keepalive call site is the
one that advances `our_nonce` before invoking it, while the connector's
startup keepalive is sent with the un-advanced initial nonce. -/
theorem c7_amended_keepalive (size : Nat) (peer : Addr) (nonce : Nonce)
    (encN uw : Int) :
    (send_keepalive size peer nonce encN uw).plaintext =
      List.replicate 32 0 ++ [254, size / 256 % 256, size % 256] ∧
    (send_keepalive size peer nonce encN uw).sentNonce = nonce ∧
    (encN < 0 → (send_keepalive size peer nonce encN uw).ret = -1) ∧
    (0 ≤ encN → uw < 0 → (send_keepalive size peer nonce encN uw).ret = -1) ∧
    (0 ≤ encN → 0 ≤ uw →
      (send_keepalive size peer nonce encN uw).ret = 0 ∧
      (send_keepalive size peer nonce encN uw).sent = some (peer, nonce, encN)) ∧
    (∀ st : TunnelState, st.peer.family ≠ 0 →
      (idleStep st 0 encN uw).ka =
        (update_nonce st.ournonce).map
          (fun nn => send_keepalive st.biggest_rcvd st.peer nn encN uw)) := by
  refine ⟨?_, ?_, ?_, ?_, ?_, ?_⟩
  · unfold send_keepalive
    repeat' split
    all_goals rfl
  · unfold send_keepalive
    repeat' split
    all_goals rfl
  · intro h
    simp [send_keepalive, h]
  · intro h1 h2
    simp [send_keepalive, show ¬ encN < 0 by omega, h2]
  · intro h1 h2
    simp [send_keepalive, show ¬ encN < 0 by omega, show ¬ uw < 0 by omega]
  · intro st hp
    unfold idleStep
    rw [if_pos ⟨rfl, hp⟩]
    cases hu : update_nonce st.ournonce with
    | none => rfl
    | some nn =>
      dsimp only
      split
      all_goals rfl

/-- Claim C8: the connector (`-l` absent) sends exactly one startup
keepalive of size 0, addressed to the configured server, with the initial
nonce, before entering the event loop; a failure of that send aborts
`tunnel` (`st = none` models `return -1`); on success it starts `linked`
with `peer = server`; the listener sends no startup keepalive and enters
the loop unconditionally. -/
theorem c8_startup_keepalive (server : Addr) (npfx side : Nat) (encN uw : Int) :
    (tunnelInit false server npfx side encN uw).startupKA =
      some (send_keepalive 0 server (generate_nonce npfx side) encN uw) ∧
    ((send_keepalive 0 server (generate_nonce npfx side) encN uw).ret < 0 →
      (tunnelInit false server npfx side encN uw).st = none) ∧
    (∀ s : TunnelState, (tunnelInit false server npfx side encN uw).st = some s →
      s.peer = server ∧ s.ournonce = generate_nonce npfx side ∧
      s.theirnonce = List.replicate 24 0) ∧
    (tunnelInit true server npfx side encN uw).startupKA = none ∧
    (tunnelInit true server npfx side encN uw).st ≠ none := by
  refine ⟨?_, ?_, ?_, rfl, by simp [tunnelInit]⟩
  · unfold tunnelInit
    dsimp only
    split
    all_goals rfl
  · intro h
    unfold tunnelInit
    dsimp only
    rw [if_pos h]
  · intro s hs
    unfold tunnelInit at hs
    dsimp only at hs
    split at hs
    · simp at hs
    · simp at hs
      subst hs
      exact ⟨rfl, rfl, rfl⟩

/-- Coherence of the outbound-nonce trace: whenever a TAP drain iteration
emits a datagram, the nonce it carries is exactly the single advance of the
current `ournonce` — so successive emissions carry `nthOutNonce` values. -/
theorem tapStep_sent_advances (st : TunnelState) (tapN encN uw : Int) (nn : Nonce)
    (l : Int) (h : (tapStep st tapN encN uw).sent = some (nn, l)) :
    update_nonce st.ournonce = some nn := by
  unfold tapStep at h
  split at h
  · cases hu : update_nonce st.ournonce with
    | none => rw [hu] at h; simp at h
    | some nn' =>
      rw [hu] at h
      dsimp only at h
      split at h
      · simp at h
      · split at h
        · simp at h
        · split at h
          all_goals
            simp at h
            rw [h.1]
  · split at h
    all_goals simp at h
